import Mathlib

/-!
Verification of `LLDB_Eigen_Data_Formatter.py`.

This file gives a shallow embedding of the formatter's logic and proves the
specified properties about it.  The debugger's SB API is a black box to the
script; a value is therefore modelled by exactly the observations the script
makes of it (type name, child values, validity flags, results of evaluating
the `.rows()` / `.cols()` accessor expressions), collected in the structure
`EigenValue` below.  Python's arbitrary-precision integers are modelled by
`Int`; element values returned by `GetValue()` are modelled by `String`
(the script only ever treats them as display text).  The console output of
the script's `print` calls is modelled by returning a `List String` of
diagnostics alongside the summary string.
-/

/-- The loop of Python `range(a, b, s)` with a positive step, with explicit
fuel: emit `a` and continue from `a + s` while `a < b`.  Since each
iteration increases `a` by `s ≥ 1`, fuel `(b - a).toNat` always suffices,
which is how `pyRangeStep` below instantiates it. -/
def pyRangeStepAux : Nat → Int → Int → Int → List Int
  | 0, _, _, _ => []
  | fuel + 1, a, b, s =>
    if 0 < s ∧ a < b then a :: pyRangeStepAux fuel (a + s) b s else []

/-- Python `range(a, b, s)` for a step `s`: the list `a, a+s, a+2s, ...` of
elements below `b`.  The script only ever constructs ranges with a positive
step (the step is `rows`, and the loop producing rows is empty whenever
`rows ≤ 0`, so a non-positive step is never iterated); for `s ≤ 0` this
model returns the empty list. -/
def pyRangeStep (a b s : Int) : List Int :=
  pyRangeStepAux (b - a).toNat a b s

/-- Python `range(a, b)`, i.e. `range(a, b, 1)`. -/
def pyRange (a b : Int) : List Int :=
  pyRangeStep a b 1

/-- Python `str.rjust(width, fill)`: pad on the left up to `width`
characters; a string at least `width` long is returned unchanged. -/
def rjust (s : String) (width : Nat) (fill : Char) : String :=
  String.mk (List.replicate (width - s.length) fill) ++ s

/-- How Python renders the `is_row_major` argument (`True`/`False`/`None`)
inside the f-string header. -/
def pyReprOptBool : Option Bool → String
  | some true => "True"
  | some false => "False"
  | none => "None"

/-- `_row_element` (source lines 67-73): generator of the element values of
logical row `row`.  Python's `if is_row_major:` is a truthiness test, so
both `False` and `None` take the column-major branch. -/
def _row_element (child : Int → String) (row rows cols : Int)
    (is_row_major : Option Bool) : List String :=
  if is_row_major = some true then
    (pyRange (row * cols) ((row + 1) * cols)).map child
  else
    (pyRangeStep row (rows * cols) rows).map child

/-- `print_raw_matrix` (source lines 76-95).  `child i` models
`valobj.GetChildAtIndex(i, lldb.eNoDynamicValues, True).GetValue()`. -/
def print_raw_matrix (child : Int → String) (rows cols : Int)
    (is_row_major : Option Bool) : String :=
  if rows * cols > 100 then "[matrix too large]"
  else
    let header := "rows: " ++ toString rows ++ ", cols: " ++ toString cols
      ++ ", is_row_major: " ++ pyReprOptBool is_row_major ++ "\n["
    let padding := ((pyRange 0 (rows * cols)).map
      (fun i => (child i).length)).foldl Nat.max 1
    let body := String.join ((pyRange 0 rows).map (fun j =>
      (if j ≠ 0 then " " else "")
      ++ String.join ((_row_element child j rows cols is_row_major).map
          (fun val => rjust val (padding + 1) ' '))
      ++ ";\n"))
    header ++ body ++ " ]\n"

/-- The literal prefix required by the layout-detection pattern
`Eigen::Matrix<[^,]+, [^,]+, [^,]+, (\x5cd),` (source line 44). -/
def headerChars : List Char :=
  "Eigen::Matrix<".toList

/-- Splits a character list at the first comma (the semantics of matching a
greedy `[^,]+` run: since the class excludes the delimiter, the greedy match
extends exactly to the next comma and no backtracking can alter it). -/
def spanNC : List Char → List Char × List Char
  | [] => ([], [])
  | c :: rest =>
    if c = ',' then ([], c :: rest)
    else (c :: (spanNC rest).1, (spanNC rest).2)

/-- Consumes one `[^,]+, ` group of the pattern: a nonempty comma-free run
followed by the literal comma-space; returns the remainder on success. -/
def parseParam (l : List Char) : Option (List Char) :=
  match spanNC l with
  | (run, rem) =>
    if run = [] then none
    else
      match rem with
      | c1 :: c2 :: rest => if c1 = ',' ∧ c2 = ' ' then some rest else none
      | _ => none

/-- Strips an expected literal character sequence from the front. -/
def stripHeader : List Char → List Char → Option (List Char)
  | [], l => some l
  | _ :: _, [] => none
  | a :: h, b :: l => if a = b then stripHeader h l else none

/-- Attempts the whole pattern
`Eigen::Matrix<[^,]+, [^,]+, [^,]+, (\x5cd),` at the start of `l`,
returning the captured digit.  The pattern is deterministic at a fixed
start position (see `spanNC`), so plain sequential consumption is exact. -/
def matchFrom (l : List Char) : Option Char :=
  match stripHeader headerChars l with
  | none => none
  | some l1 =>
    match parseParam l1 with
    | none => none
    | some l2 =>
      match parseParam l2 with
      | none => none
      | some l3 =>
        match parseParam l3 with
        | none => none
        | some l4 =>
          match l4 with
          | d :: c :: _ => if c = ',' ∧ d.isDigit then some d else none
          | _ => none

/-- `re.search`: try the pattern at each start position, left to right. -/
def searchEigen : List Char → Option Char
  | [] => none
  | c :: rest =>
    match matchFrom (c :: rest) with
    | some d => some d
    | none => searchEigen rest

/-- `extract_is_row_major` (source lines 35-60), applied to the type name
string.  Returns the classification together with the diagnostics printed
on the failure paths. -/
def extract_is_row_major (matrix_type : String) : Option Bool × List String :=
  match searchEigen matrix_type.toList with
  | none =>
    (none, ["Could not determine matrix layout from type: " ++ matrix_type])
  | some storage_order =>
    if storage_order = '1' then (some true, [])
    else if storage_order = '0' then (some false, [])
    else (none, ["Unexpected storage order value: "
      ++ String.singleton storage_order])

/-- Whether the literal prefix `Eigen::Matrix<` occurs anywhere in the
character list (computable, so that hypotheses about it can be decided). -/
def containsHeader : List Char → Bool
  | [] => false
  | c :: rest =>
    (stripHeader headerChars (c :: rest)).isSome || containsHeader rest

/-- A well-formed type name of the shape the specification describes: the
`Eigen::Matrix<` template header, three comma-space-separated parameters,
then the storage-order parameter `d` followed by a comma and the rest of
the signature. -/
def eigenTypeName (p1 p2 p3 : String) (d : Char) (rest : String) : String :=
  "Eigen::Matrix<" ++ p1 ++ ", " ++ p2 ++ ", " ++ p3 ++ ", "
    ++ String.singleton d ++ "," ++ rest

/-- The observations the script makes of an LLDB `SBValue`.
`fixedArrayValid` is `IsValid()` of `.m_storage.m_data.array`;
`dynDataValid` is `IsValid()` of `.m_storage.m_data` and `dynDataIsPointer`
whether that member's type `IsPointerType()`.  `evalSigned e` is
`GetValueAsSigned()` of evaluating expression `e` in the selected frame
(`evaluate_expression`, source lines 63-64).  `exprPath` is the value's
`GetExpressionPath`.  `fixedChild` / `dynChild` are the `GetValue()`
strings of the indexed children of the respective storage member, and
`dynChildRaises i` records whether `GetChildAtIndex i` raises for the
dynamic storage (the liveness probe catches exactly this). -/
structure EigenValue where
  typeName : String
  summary : String
  exprPath : String
  evalSigned : String → Int
  fixedArrayValid : Bool
  fixedNumChildren : Nat
  fixedChild : Int → String
  dynDataValid : Bool
  dynDataIsPointer : Bool
  dynNumChildren : Nat
  dynChild : Int → String
  dynChildRaises : Int → Bool

/-- `fixed_sized_matrix_to_string` (source lines 97-127).  The mismatch
branch first prints its diagnostic and then rebinds `cols = 1`,
`rows = num_data_elements` before the shared `print_raw_matrix` call. -/
def fixed_sized_matrix_to_string (v : EigenValue) : String × List String :=
  if v.fixedArrayValid = false then (v.summary, [])
  else
    let num : Int := v.fixedNumChildren
    let rows := v.evalSigned (v.exprPath ++ ".rows()")
    let cols := v.evalSigned (v.exprPath ++ ".cols()")
    if rows * cols ≠ num then
      let o := extract_is_row_major v.typeName
      (print_raw_matrix v.fixedChild num 1 o.1,
        "error: eigen data formatter: could not infer data layout. printing raw data instead"
          :: o.2)
    else
      let o := extract_is_row_major v.typeName
      (print_raw_matrix v.fixedChild rows cols o.1, o.2)

/-- `dynamically_sized_matrix_to_string` (source lines 129-159).  Note that
unlike the fixed-size path it performs no `rows*cols` versus element-count
consistency check; after the liveness probe it renders directly with the
evaluated dimensions. -/
def dynamically_sized_matrix_to_string (v : EigenValue) : String × List String :=
  if v.dynDataValid = false then (v.summary, [])
  else
    let rows := v.evalSigned (v.exprPath ++ ".rows()")
    let cols := v.evalSigned (v.exprPath ++ ".cols()")
    if v.dynChildRaises (rows * cols) then ("[uninitialized]", [])
    else
      let o := extract_is_row_major v.typeName
      (print_raw_matrix v.dynChild rows cols o.1, o.2)

/-- `format_matrix` (source lines 161-168): the dispatcher. -/
def format_matrix (v : EigenValue) : String × List String :=
  if v.fixedArrayValid then fixed_sized_matrix_to_string v
  else if v.dynDataIsPointer then dynamically_sized_matrix_to_string v
  else (v.summary, [])

/-- Renderer written from the specification's wording, for comparison with
`print_raw_matrix`: a header reporting the dimensions and detected order,
then for each logical row `i < rows` a row-group of exactly `cols` cells,
cell `(i, j)` holding buffer element `i*cols + j` for row-major and
`j*rows + i` otherwise, every cell right-justified to the uniform width
`1 +` the maximum printed width over all elements, each row-group
terminated by a semicolon and newline (rows after the first indented one
space to align under the bracket), and the grid wrapped in a leading `[`
and a trailing `]`. -/
def render_spec (child : Int → String) (rows cols : Int)
    (order : Option Bool) : String :=
  let r := rows.toNat
  let c := cols.toNat
  let idx : Nat → Nat → Int := fun i j =>
    match order with
    | some true => (i : Int) * cols + (j : Int)
    | _ => (j : Int) * rows + (i : Int)
  let w := (((List.range (r * c)).map
    (fun (i : Nat) => (child (i : Int)).length)).foldl Nat.max 0) + 1
  "rows: " ++ toString rows ++ ", cols: " ++ toString cols
    ++ ", is_row_major: " ++ pyReprOptBool order ++ "\n["
    ++ String.join ((List.range r).map (fun i =>
        (if i = 0 then "" else " ")
        ++ String.join ((List.range c).map (fun j =>
            rjust (child (idx i j)) w ' '))
        ++ ";\n"))
    ++ " ]\n"

/-- Where a stream (Unix file descriptors 1 and 2) can point in the model:
at some console sink, or at the null device. -/
inductive StreamTarget
  | console : Nat → StreamTarget
  | nullSink : StreamTarget
deriving DecidableEq, Repr

/-- The process state touched by `suppress_stdout_stderr`
(source lines 13-31): what descriptors 1 and 2 currently point to, how
many null-device descriptors are open, and how many descriptors created by
`os.dup` of the original streams are open (line 18 allocates two of these
per instance; lines 25-31 close only the null descriptors, never these). -/
structure StreamState where
  stdoutTarget : StreamTarget
  stderrTarget : StreamTarget
  nullOpen : Nat
  dupOpen : Nat
deriving DecidableEq, Repr

/-- The `with suppress_stdout_stderr():` block around a body
(source lines 13-31 together with the `with` statements at lines 112 and
144).  `__init__` opens two null descriptors and calls `os.dup(1)` and
`os.dup(2)`, which allocate two fresh descriptors aliased to the current
targets of 1 and 2; `__enter__` `dup2`s the null descriptors onto 1 and 2;
`__exit__` `dup2`s the saved targets back and closes the null descriptors
only — the two descriptors from `os.dup` are never closed, so every
invocation leaves `dupOpen` two higher than before.  Python runs
`__exit__` on every exit path, and since `__exit__` returns `None` an
exception raised by the body propagates onward after restoration; the body
therefore returns an `Except` and its outcome is passed through
unchanged. -/
def with_suppress_stdout_stderr {ε α : Type} (s : StreamState)
    (body : StreamState → Except ε α × StreamState) :
    Except ε α × StreamState :=
  let saved1 := s.stdoutTarget
  let saved2 := s.stderrTarget
  let entered : StreamState :=
    { stdoutTarget := StreamTarget.nullSink
      stderrTarget := StreamTarget.nullSink
      nullOpen := s.nullOpen + 2
      dupOpen := s.dupOpen + 2 }
  let run := body entered
  (run.1,
    { stdoutTarget := saved1
      stderrTarget := saved2
      nullOpen := run.2.nullOpen - 2
      dupOpen := run.2.dupOpen })

/-- A dynamically-stored matrix value whose evaluated dimensions `2 × 2`
disagree with its element count `5`. -/
def dynMismatchValue : EigenValue :=
  { typeName := "Eigen::Matrix<double, -1, -1, 0, -1, -1>"
    summary := "summary"
    exprPath := "m"
    evalSigned := fun e =>
      if e = "m.rows()" then 2 else if e = "m.cols()" then 2 else 0
    fixedArrayValid := false
    fixedNumChildren := 0
    fixedChild := fun _ => ""
    dynDataValid := true
    dynDataIsPointer := true
    dynNumChildren := 5
    dynChild := fun i => toString (i + 1)
    dynChildRaises := fun _ => false }

/-- A fixed-storage matrix value whose evaluated dimensions `3 × 2`
disagree with its element count `5`. -/
def fixedMismatchValue : EigenValue :=
  { typeName := "Eigen::Matrix<double, 3, 2, 0, 3, 2>"
    summary := "summary"
    exprPath := "f"
    evalSigned := fun e =>
      if e = "f.rows()" then 3 else if e = "f.cols()" then 2 else 0
    fixedArrayValid := true
    fixedNumChildren := 5
    fixedChild := fun i => toString (i + 1)
    dynDataValid := false
    dynDataIsPointer := false
    dynNumChildren := 0
    dynChild := fun _ => ""
    dynChildRaises := fun _ => false }

/-- A fixed-storage value of an `Eigen::Array` type (the registered
`Eigen::Array` pattern also routes such values to `format_matrix`). -/
def arrayValue : EigenValue :=
  { typeName := "Eigen::Array<float, 2, 2, 0, 2, 2>"
    summary := "summary"
    exprPath := "a"
    evalSigned := fun e =>
      if e = "a.rows()" then 2 else if e = "a.cols()" then 2 else 0
    fixedArrayValid := true
    fixedNumChildren := 4
    fixedChild := fun i => toString (i + 1)
    dynDataValid := false
    dynDataIsPointer := false
    dynNumChildren := 0
    dynChild := fun _ => ""
    dynChildRaises := fun _ => false }

/-- A dynamically-stored value whose liveness probe raises. -/
def uninitValue : EigenValue :=
  { typeName := "Eigen::Matrix<double, -1, -1, 0, -1, -1>"
    summary := "summary"
    exprPath := "u"
    evalSigned := fun e =>
      if e = "u.rows()" then 3 else if e = "u.cols()" then 3 else 0
    fixedArrayValid := false
    fixedNumChildren := 0
    fixedChild := fun _ => ""
    dynDataValid := true
    dynDataIsPointer := true
    dynNumChildren := 0
    dynChild := fun _ => ""
    dynChildRaises := fun _ => true }

/-- A value exposing neither an inline array nor pointer-typed storage. -/
def unrecognizedValue : EigenValue :=
  { typeName := "Eigen::Matrix<double, 2, 2, 0, 2, 2>"
    summary := "the default summary"
    exprPath := "x"
    evalSigned := fun _ => 0
    fixedArrayValid := false
    fixedNumChildren := 0
    fixedChild := fun _ => ""
    dynDataValid := false
    dynDataIsPointer := false
    dynNumChildren := 0
    dynChild := fun _ => ""
    dynChildRaises := fun _ => false }

lemma pyRangeStepAux_congr : ∀ (f1 f2 : Nat) (a b s : Int),
    (b - a).toNat ≤ f1 → (b - a).toNat ≤ f2 →
    pyRangeStepAux f1 a b s = pyRangeStepAux f2 a b s := by
  intro f1
  induction f1 with
  | zero =>
    intro f2 a b s h1 h2
    have hab : ¬ a < b := by omega
    cases f2 with
    | zero => rfl
    | succ m => simp [pyRangeStepAux, hab]
  | succ n ih =>
    intro f2 a b s h1 h2
    cases f2 with
    | zero =>
      have hab : ¬ a < b := by omega
      simp [pyRangeStepAux, hab]
    | succ m =>
      simp only [pyRangeStepAux]
      by_cases hc : 0 < s ∧ a < b
      · rw [if_pos hc, if_pos hc]
        congr 1
        exact ih m (a + s) b s (by omega) (by omega)
      · rw [if_neg hc, if_neg hc]

lemma pyRangeStep_eq_map (k : Nat) : ∀ (a b s : Int), 0 < s →
    (k : Int) * s < b - a + s → b - a ≤ (k : Int) * s →
    pyRangeStep a b s = (List.range k).map (fun (i : Nat) => a + (i : Int) * s) := by
  induction k with
  | zero =>
    intro a b s hs h1 h2
    simp only [Nat.cast_zero, zero_mul] at h2
    unfold pyRangeStep
    have h0 : (b - a).toNat = 0 := by omega
    rw [h0]
    rfl
  | succ k ih =>
    intro a b s hs h1 h2
    have hks : 0 ≤ (k : Int) * s := by positivity
    have hab : a < b := by push_cast at h1; nlinarith
    unfold pyRangeStep
    obtain ⟨m, hm⟩ : ∃ m, (b - a).toNat = m + 1 := ⟨(b - a).toNat - 1, by omega⟩
    rw [hm]
    simp only [pyRangeStepAux]
    rw [if_pos ⟨hs, hab⟩]
    have hcongr : pyRangeStepAux m (a + s) b s = pyRangeStep (a + s) b s := by
      unfold pyRangeStep
      exact pyRangeStepAux_congr m _ (a + s) b s (by omega) (le_refl _)
    rw [hcongr, ih (a + s) b s hs (by push_cast at h1 ⊢; nlinarith)
      (by push_cast at h2 ⊢; nlinarith)]
    rw [List.range_succ_eq_map, List.map_cons, List.map_map]
    congr 1
    · simp
    · apply List.map_congr_left
      intro i _
      simp only [Function.comp]
      push_cast
      ring

lemma pyRange_eq_map (a : Int) (k : Nat) :
    pyRange a (a + (k : Int)) = (List.range k).map (fun (i : Nat) => a + (i : Int)) := by
  rw [pyRange]
  rw [pyRangeStep_eq_map k a (a + (k : Int)) 1 (by omega) (by omega) (by omega)]
  apply List.map_congr_left
  intro i _
  ring

lemma row_major_range (j cols : Int) (c : Nat) (hc : cols = (c : Int)) :
    pyRange (j * cols) ((j + 1) * cols)
      = (List.range c).map (fun (i : Nat) => j * cols + (i : Int)) := by
  have h1 : (j + 1) * cols = j * cols + (c : Int) := by rw [hc]; ring
  rw [h1, pyRange_eq_map]

lemma col_major_range (j rows cols : Int) (c : Nat) (hc : cols = (c : Int))
    (hj0 : 0 ≤ j) (hjr : j < rows) :
    pyRangeStep j (rows * cols) rows
      = (List.range c).map (fun (i : Nat) => j + (i : Int) * rows) := by
  apply pyRangeStep_eq_map c j (rows * cols) rows (by omega)
  · rw [hc]; nlinarith
  · rw [hc]; nlinarith

/-- C2: for every buffer, rows, cols and ordering, logical row `r` consists
of buffer elements `r*cols, ..., r*cols + (cols-1)` under RowMajor and of
elements `r, r + rows, r + 2*rows, ...` (`cols` of them, all below
`rows*cols`) under ColumnMajor; concretely, the buffer `[1,2,3,4]` with
`rows = 2`, `cols = 2` yields rows `(1,2)` and `(3,4)` under RowMajor and
`(1,3)` and `(2,4)` under ColumnMajor. -/
theorem row_traversal_orders :
    (∀ (child : Int → String) (r rows cols : Int) (c : Nat), cols = (c : Int) →
      0 ≤ r → r < rows →
      _row_element child r rows cols (some true)
        = (List.range c).map (fun (i : Nat) => child (r * cols + (i : Int)))
      ∧ _row_element child r rows cols (some false)
        = (List.range c).map (fun (i : Nat) => child (r + (i : Int) * rows)))
    ∧ _row_element (fun i => toString (i + 1)) 0 2 2 (some true) = ["1", "2"]
    ∧ _row_element (fun i => toString (i + 1)) 1 2 2 (some true) = ["3", "4"]
    ∧ _row_element (fun i => toString (i + 1)) 0 2 2 (some false) = ["1", "3"]
    ∧ _row_element (fun i => toString (i + 1)) 1 2 2 (some false) = ["2", "4"] := by
  refine ⟨?_, by decide, by decide, by decide, by decide⟩
  intro child r rows cols c hc h0 hr
  constructor
  · simp only [_row_element, if_pos rfl]
    rw [row_major_range r cols c hc, List.map_map]
    rfl
  · have hne : ¬ ((some false : Option Bool) = some true) := by decide
    simp only [_row_element, if_neg hne]
    rw [col_major_range r rows cols c hc h0 hr, List.map_map]
    rfl

/-- Witness for `row_traversal_orders` at a concrete buffer and shape. -/
theorem row_traversal_orders_witness :
    _row_element (fun _ => "9") 1 3 2 (some true)
      = (List.range 2).map (fun (i : Nat) => (fun (_ : Int) => "9") ((1 : Int) * 2 + (i : Int)))
    ∧ _row_element (fun _ => "9") 1 3 2 (some false)
      = (List.range 2).map (fun (i : Nat) => (fun (_ : Int) => "9") ((1 : Int) + (i : Int) * 3)) :=
  ⟨(row_traversal_orders.1 (fun _ => "9") 1 3 2 2 (by decide) (by decide) (by decide)).1,
   (row_traversal_orders.1 (fun _ => "9") 1 3 2 2 (by decide) (by decide) (by decide)).2⟩

/-- C4: with more than 100 elements the renderer returns exactly the
"too large" marker and nothing else; with at most 100 elements the marker
is never the output. -/
theorem oversize_guard :
    ∀ (child : Int → String) (rows cols : Int) (order : Option Bool),
      (100 < rows * cols →
        print_raw_matrix child rows cols order = "[matrix too large]")
      ∧ (rows * cols ≤ 100 →
        print_raw_matrix child rows cols order ≠ "[matrix too large]") := by
  intro child rows cols order
  constructor
  · intro h
    simp only [print_raw_matrix]
    rw [if_pos (by omega : rows * cols > 100)]
  · intro h heq
    rw [print_raw_matrix, if_neg (by omega : ¬ rows * cols > 100)] at heq
    have hlen := congrArg String.length heq
    simp only [String.length_append] at hlen
    have l1 : ("rows: " : String).length = 6 := by decide
    have l2 : (", cols: " : String).length = 8 := by decide
    have l3 : (", is_row_major: " : String).length = 16 := by decide
    have l4 : ("\n[" : String).length = 2 := by decide
    have l5 : (" ]\n" : String).length = 3 := by decide
    have l6 : ("[matrix too large]" : String).length = 18 := by decide
    omega

/-- Witness for `oversize_guard`: 110 elements give exactly the marker and
a `2 × 2` shape never does. -/
theorem oversize_guard_witness :
    print_raw_matrix (fun _ => "1") 11 10 none = "[matrix too large]"
    ∧ print_raw_matrix (fun _ => "1") 2 2 none ≠ "[matrix too large]" :=
  ⟨(oversize_guard (fun _ => "1") 11 10 none).1 (by decide),
   (oversize_guard (fun _ => "1") 2 2 none).2 (by decide)⟩

/-- C6: for a dynamically-sized value (one whose indirect storage member is
valid), if the liveness probe of the element at linear index `rows*cols`
raises, the raise is caught and the whole output is exactly
`[uninitialized]`, with no diagnostics and no grid. -/
theorem uninitialized_guard :
    ∀ v : EigenValue, v.dynDataValid = true →
      v.dynChildRaises (v.evalSigned (v.exprPath ++ ".rows()")
        * v.evalSigned (v.exprPath ++ ".cols()")) = true →
      dynamically_sized_matrix_to_string v = ("[uninitialized]", []) := by
  intro v hvalid hprobe
  simp only [dynamically_sized_matrix_to_string, hvalid, hprobe]
  simp

/-- Witness for `uninitialized_guard` at the concrete value `uninitValue`. -/
theorem uninitialized_guard_witness :
    dynamically_sized_matrix_to_string uninitValue = ("[uninitialized]", []) :=
  uninitialized_guard uninitValue (by decide) (by decide)

/-- C7: the dispatcher first checks the inline fixed-capacity array member
and takes the fixed path when present; otherwise it takes the dynamic path
when the storage member is pointer-typed; otherwise the output is the
host-provided default summary, unmodified, with no diagnostics. -/
theorem dispatch_rule :
    ∀ v : EigenValue,
      (v.fixedArrayValid = true →
        format_matrix v = fixed_sized_matrix_to_string v)
      ∧ (v.fixedArrayValid = false → v.dynDataIsPointer = true →
        format_matrix v = dynamically_sized_matrix_to_string v)
      ∧ (v.fixedArrayValid = false → v.dynDataIsPointer = false →
        format_matrix v = (v.summary, [])) := by
  intro v
  refine ⟨fun h1 => ?_, fun h1 h2 => ?_, fun h1 h2 => ?_⟩
  · simp [format_matrix, h1]
  · simp [format_matrix, h1, h2]
  · simp [format_matrix, h1, h2]

/-- Witness for `dispatch_rule`: a value with neither storage shape
yields the default summary. -/
theorem dispatch_rule_witness :
    format_matrix unrecognizedValue = ("the default summary", []) :=
  (dispatch_rule unrecognizedValue).2.2 (by decide) (by decide)

/-- C8 (amended): the suppression block redirects the standard streams to
the null sink for the duration of the body and, whether the body completes
normally or raises (returns `Except.error`), the final state restores the
original stream targets and releases the two null descriptors; however the
two descriptors created by `os.dup` in `__init__` are never closed, so for
a body that leaves the stream state unchanged the state after the block is
exactly the state before it except that two more duplicated descriptors
remain open, and the body's outcome is passed through unchanged. -/
theorem stream_suppression_scoped :
    ∀ (ε α : Type) (s : StreamState)
      (body : StreamState → Except ε α × StreamState),
      (∀ st, (body st).2 = st) →
      (with_suppress_stdout_stderr s body).2
        = { s with dupOpen := s.dupOpen + 2 }
      ∧ (with_suppress_stdout_stderr s body).1
        = (body (StreamState.mk StreamTarget.nullSink StreamTarget.nullSink
            (s.nullOpen + 2) (s.dupOpen + 2))).1 := by
  intro ε α s body hbody
  constructor
  · simp only [with_suppress_stdout_stderr, hbody]
    cases s with
    | mk o e n d => simp
  · rfl

/-- Witness for `stream_suppression_scoped`: a body that raises still has
the streams restored and the null descriptors closed afterwards, with
exactly the two leaked duplicate descriptors added. -/
theorem stream_suppression_scoped_witness :
    (with_suppress_stdout_stderr
      (StreamState.mk (StreamTarget.console 1) (StreamTarget.console 2) 0 0)
      (fun st => ((Except.error ("boom") : Except String Unit), st))).2
      = StreamState.mk (StreamTarget.console 1) (StreamTarget.console 2) 0 2 :=
  (stream_suppression_scoped String Unit
    (StreamState.mk (StreamTarget.console 1) (StreamTarget.console 2) 0 0)
    (fun st => ((Except.error ("boom") : Except String Unit), st))
    (fun _ => rfl)).1

/-- Counterexample to C8 as stated: even for a body that changes nothing
and completes normally, the state after the block is not the state before
it — `os.dup(1)` and `os.dup(2)` (source line 18) opened two descriptors
that `__exit__` (source lines 25-31) never closes, although the stream
targets themselves are restored and the null descriptors released. -/
theorem stream_suppression_cex :
    (with_suppress_stdout_stderr
      (StreamState.mk (StreamTarget.console 1) (StreamTarget.console 2) 0 0)
      (fun st => ((Except.ok () : Except String Unit), st))).2
      ≠ StreamState.mk (StreamTarget.console 1) (StreamTarget.console 2) 0 0
    ∧ (with_suppress_stdout_stderr
      (StreamState.mk (StreamTarget.console 1) (StreamTarget.console 2) 0 0)
      (fun st => ((Except.ok () : Except String Unit), st))).2.dupOpen = 2 :=
  ⟨by decide, by decide⟩

/-- C9: the layout detector and the whole formatter are pure functions of
their inputs in this embedding (the script reads no mutable global state),
so invocations on equal inputs give identical results. -/
theorem formatter_deterministic :
    (∀ s t : String, s = t → extract_is_row_major s = extract_is_row_major t)
    ∧ (∀ v w : EigenValue, v = w → format_matrix v = format_matrix w) :=
  ⟨fun _ _ h => congrArg extract_is_row_major h,
   fun _ _ h => congrArg format_matrix h⟩

/-- Witness for `formatter_deterministic` at a concrete type name. -/
theorem formatter_deterministic_witness :
    extract_is_row_major ("Eigen::Matrix<double, 3, 3, 1, 3, 3>")
      = extract_is_row_major ("Eigen::Matrix<double, 3, 3, 1, 3, 3>") :=
  formatter_deterministic.1 ("Eigen::Matrix<double, 3, 3, 1, 3, 3>")
    ("Eigen::Matrix<double, 3, 3, 1, 3, 3>") rfl

lemma stripHeader_prefix : ∀ (h l : List Char), stripHeader h (h ++ l) = some l := by
  intro h
  induction h with
  | nil => intro l; rfl
  | cons a h ih =>
    intro l
    simp only [List.cons_append, stripHeader, if_pos rfl]
    exact ih l

lemma spanNC_append : ∀ (p r : List Char), ',' ∉ p →
    spanNC (p ++ ',' :: r) = (p, ',' :: r) := by
  intro p
  induction p with
  | nil => intro r _; simp [spanNC]
  | cons a p ih =>
    intro r hp
    rw [List.mem_cons, not_or] at hp
    obtain ⟨hpa, hpp⟩ := hp
    have ha : ¬ (a = ',') := fun h => hpa h.symm
    simp only [List.cons_append, spanNC, if_neg ha, List.append_eq]
    rw [ih r hpp]

lemma parseParam_append : ∀ (p r : List Char), p ≠ [] → ',' ∉ p →
    parseParam (p ++ ',' :: ' ' :: r) = some r := by
  intro p r hne hp
  unfold parseParam
  rw [spanNC_append p (' ' :: r) hp]
  simp only [if_neg hne]
  simp

lemma matchFrom_structured (p1 p2 p3 : List Char) (d : Char) (rest : List Char)
    (h1 : p1 ≠ []) (h1c : ',' ∉ p1) (h2 : p2 ≠ []) (h2c : ',' ∉ p2)
    (h3 : p3 ≠ []) (h3c : ',' ∉ p3) (hd : d.isDigit = true) :
    matchFrom (headerChars ++ (p1 ++ ',' :: ' ' :: (p2 ++ ',' :: ' ' ::
      (p3 ++ ',' :: ' ' :: (d :: ',' :: rest))))) = some d := by
  simp only [matchFrom, stripHeader_prefix,
    parseParam_append p1 _ h1 h1c,
    parseParam_append p2 _ h2 h2c,
    parseParam_append p3 _ h3 h3c]
  simp [hd]

lemma searchEigen_of_matchFrom : ∀ (l : List Char) (d : Char),
    matchFrom l = some d → searchEigen l = some d := by
  intro l d h
  cases l with
  | nil =>
    have hnone : matchFrom [] = none := by decide
    rw [hnone] at h
    exact Option.noConfusion h
  | cons c rest =>
    unfold searchEigen
    rw [h]

lemma searchEigen_containsHeader : ∀ (l : List Char) (d : Char),
    searchEigen l = some d → containsHeader l = true := by
  intro l
  induction l with
  | nil => intro d h; simp [searchEigen] at h
  | cons c rest ih =>
    intro d h
    unfold searchEigen at h
    cases hm : matchFrom (c :: rest) with
    | some d2 =>
      unfold containsHeader
      unfold matchFrom at hm
      cases hs : stripHeader headerChars (c :: rest) with
      | none => rw [hs] at hm; simp at hm
      | some l1 => simp
    | none =>
      rw [hm] at h
      simp only at h
      unfold containsHeader
      rw [ih d h]
      simp

/-- C5: the layout detector never throws, always returning one of
RowMajor / ColumnMajor / Unknown, with a single diagnostic in every
failure case; and on a type name carrying a fourth comma-separated
template parameter consisting of a digit `d`, it returns RowMajor for
`d = 1`, ColumnMajor for `d = 0`, and Unknown with a diagnostic for any
other digit. -/
theorem layout_detection :
    (∀ name : String,
      extract_is_row_major name = (some true, [])
      ∨ extract_is_row_major name = (some false, [])
      ∨ ((extract_is_row_major name).1 = none
          ∧ ∃ msg, (extract_is_row_major name).2 = [msg]))
    ∧ (∀ (p1 p2 p3 : String) (d : Char) (rest : String),
        p1.toList ≠ [] → ',' ∉ p1.toList →
        p2.toList ≠ [] → ',' ∉ p2.toList →
        p3.toList ≠ [] → ',' ∉ p3.toList → d.isDigit = true →
        extract_is_row_major (eigenTypeName p1 p2 p3 d rest)
          = (if d = '1' then (some true, [])
            else if d = '0' then (some false, [])
            else (none, ["Unexpected storage order value: "
              ++ String.singleton d]))) := by
  constructor
  · intro name
    unfold extract_is_row_major
    cases searchEigen name.toList with
    | none =>
      right; right
      exact ⟨rfl, ⟨"Could not determine matrix layout from type: " ++ name, rfl⟩⟩
    | some d =>
      by_cases h1 : d = '1'
      · left; simp [h1]
      · by_cases h0 : d = '0'
        · right; left; simp [h1, h0]
        · right; right
          simp only [if_neg h1, if_neg h0]
          exact ⟨by simp, ⟨"Unexpected storage order value: " ++ String.singleton d, by simp⟩⟩
  · intro p1 p2 p3 d rest h1 h1c h2 h2c h3 h3c hd
    have hc2 : (", " : String).data = [',', ' '] := by decide
    have hc1 : ("," : String).data = [','] := by decide
    have hsing : (String.singleton d).data = [d] := rfl
    have hlist : (eigenTypeName p1 p2 p3 d rest).toList
        = headerChars ++ (p1.toList ++ ',' :: ' ' :: (p2.toList ++ ',' :: ' ' ::
            (p3.toList ++ ',' :: ' ' :: (d :: ',' :: rest.toList)))) := by
      simp only [eigenTypeName, headerChars, String.toList, String.data_append,
        hc2, hc1, hsing, List.append_assoc, List.cons_append,
        List.nil_append]
    have hsearch : searchEigen (eigenTypeName p1 p2 p3 d rest).toList = some d := by
      rw [hlist]
      exact searchEigen_of_matchFrom _ d
        (matchFrom_structured p1.toList p2.toList p3.toList d rest.toList
          h1 h1c h2 h2c h3 h3c hd)
    unfold extract_is_row_major
    rw [hsearch]

/-- Witness for `layout_detection` on a concrete well-formed type name
with storage-order digit `1`. -/
theorem layout_detection_witness :
    extract_is_row_major (eigenTypeName ("double") ("3") ("3") '1' (" 3, 3>"))
      = (if '1' = '1' then ((some true : Option Bool), ([] : List String))
        else if '1' = '0' then (some false, [])
        else (none, ["Unexpected storage order value: " ++ String.singleton '1'])) :=
  layout_detection.2 ("double") ("3") ("3") '1' (" 3, 3>")
    (by decide) (by decide) (by decide) (by decide) (by decide) (by decide)
    (by decide)

/-- C10: the layout-detection pattern requires the literal `Eigen::Matrix<`
prefix somewhere in the type name, so any name not containing it — in
particular an ordinary `Eigen::Array` type name, although the formatter is
registered for the `Eigen::Array` pattern too — classifies as Unknown, and
such a value's grid is rendered with ordering `None`. -/
theorem array_layout_unknown :
    (∀ name : String, containsHeader name.toList = false →
      (extract_is_row_major name).1 = none)
    ∧ extract_is_row_major ("Eigen::Array<float, 2, 2, 0, 2, 2>")
      = (none,
        ["Could not determine matrix layout from type: Eigen::Array<float, 2, 2, 0, 2, 2>"])
    ∧ format_matrix arrayValue
      = (print_raw_matrix arrayValue.fixedChild 2 2 none,
        ["Could not determine matrix layout from type: Eigen::Array<float, 2, 2, 0, 2, 2>"]) := by
  refine ⟨?_, by decide, by decide⟩
  intro name hno
  unfold extract_is_row_major
  cases hs : searchEigen name.toList with
  | none => rfl
  | some d =>
    have := searchEigen_containsHeader name.toList d hs
    rw [this] at hno
    exact Bool.noConfusion hno

/-- Witness for `array_layout_unknown` at a name without the literal
prefix. -/
theorem array_layout_unknown_witness :
    (extract_is_row_major ("Eigen::Array<float, 4, 1, 0, 4, 1>")).1 = none :=
  array_layout_unknown.1 ("Eigen::Array<float, 4, 1, 0, 4, 1>") (by decide)

/-- C1 (amended): only the fixed-size path checks the evaluated dimensions
against the element count; on a mismatch it emits the diagnostic and
renders the buffer as a single column of all elements.  The dynamic path
performs no such check: after a successful liveness probe it renders with
the evaluated `rows` and `cols` unchanged and emits no mismatch
diagnostic. -/
theorem mismatch_fallback_fixed_only :
    ∀ v : EigenValue,
      (v.fixedArrayValid = true →
        v.evalSigned (v.exprPath ++ ".rows()")
            * v.evalSigned (v.exprPath ++ ".cols()")
          ≠ (v.fixedNumChildren : Int) →
        fixed_sized_matrix_to_string v
          = (print_raw_matrix v.fixedChild (v.fixedNumChildren : Int) 1
              (extract_is_row_major v.typeName).1,
            "error: eigen data formatter: could not infer data layout. printing raw data instead"
              :: (extract_is_row_major v.typeName).2))
      ∧ (v.dynDataValid = true →
        v.dynChildRaises (v.evalSigned (v.exprPath ++ ".rows()")
          * v.evalSigned (v.exprPath ++ ".cols()")) = false →
        dynamically_sized_matrix_to_string v
          = (print_raw_matrix v.dynChild
              (v.evalSigned (v.exprPath ++ ".rows()"))
              (v.evalSigned (v.exprPath ++ ".cols()"))
              (extract_is_row_major v.typeName).1,
            (extract_is_row_major v.typeName).2)) := by
  intro v
  constructor
  · intro hval hne
    simp only [fixed_sized_matrix_to_string, hval]
    rw [if_neg (by simp), if_pos hne]
  · intro hval hprobe
    simp only [dynamically_sized_matrix_to_string, hval, hprobe]
    simp

/-- Witness for `mismatch_fallback_fixed_only` at concrete mismatching
values of both storage kinds. -/
theorem mismatch_fallback_fixed_only_witness :
    fixed_sized_matrix_to_string fixedMismatchValue
      = (print_raw_matrix fixedMismatchValue.fixedChild
          (fixedMismatchValue.fixedNumChildren : Int) 1
          (extract_is_row_major fixedMismatchValue.typeName).1,
        "error: eigen data formatter: could not infer data layout. printing raw data instead"
          :: (extract_is_row_major fixedMismatchValue.typeName).2)
    ∧ dynamically_sized_matrix_to_string dynMismatchValue
      = (print_raw_matrix dynMismatchValue.dynChild
          (dynMismatchValue.evalSigned (dynMismatchValue.exprPath ++ ".rows()"))
          (dynMismatchValue.evalSigned (dynMismatchValue.exprPath ++ ".cols()"))
          (extract_is_row_major dynMismatchValue.typeName).1,
        (extract_is_row_major dynMismatchValue.typeName).2) :=
  ⟨(mismatch_fallback_fixed_only fixedMismatchValue).1 (by decide) (by decide),
   (mismatch_fallback_fixed_only dynMismatchValue).2 (by decide) (by decide)⟩

/-- Counterexample to C1 as stated: a dynamically-stored value whose
evaluated `2 × 2` shape disagrees with its element count `5` is rendered
with the mismatching dimensions anyway — no diagnostic is emitted and the
output is not the degenerate one-column rendering the claim requires. -/
theorem mismatch_fallback_cex :
    dynMismatchValue.evalSigned (dynMismatchValue.exprPath ++ ".rows()")
        * dynMismatchValue.evalSigned (dynMismatchValue.exprPath ++ ".cols()")
      ≠ (dynMismatchValue.dynNumChildren : Int)
    ∧ (dynamically_sized_matrix_to_string dynMismatchValue).2 = []
    ∧ (dynamically_sized_matrix_to_string dynMismatchValue).1
      ≠ print_raw_matrix dynMismatchValue.dynChild
          (dynMismatchValue.dynNumChildren : Int) 1
          (extract_is_row_major dynMismatchValue.typeName).1 :=
  ⟨by decide, by decide, by decide⟩

lemma pyRange_zero (k : Nat) :
    pyRange 0 (k : Int) = (List.range k).map (fun (i : Nat) => (i : Int)) := by
  have h := pyRange_eq_map 0 k
  rw [zero_add] at h
  rw [h]
  apply List.map_congr_left
  intro i _
  rw [zero_add]

lemma foldl_max_shift : ∀ (L : List Nat) (a b : Nat),
    List.foldl Nat.max (Nat.max a b) L = Nat.max a (List.foldl Nat.max b L) := by
  intro L
  induction L with
  | nil => intro a b; rfl
  | cons x L ih =>
    intro a b
    simp only [List.foldl]
    have hx : Nat.max (Nat.max a b) x = Nat.max a (Nat.max b x) :=
      Nat.max_assoc a b x
    rw [hx, ih a (Nat.max b x)]

lemma init_le_foldl_max : ∀ (L : List Nat) (b : Nat),
    b ≤ List.foldl Nat.max b L := by
  intro L
  induction L with
  | nil => intro b; exact Nat.le_refl b
  | cons y L ih =>
    intro b
    exact Nat.le_trans (Nat.le_max_left b y : b ≤ Nat.max b y)
      (ih (Nat.max b y))

lemma le_foldl_max : ∀ (L : List Nat) (b x : Nat), x ∈ L →
    x ≤ List.foldl Nat.max b L := by
  intro L
  induction L with
  | nil => intro b x hx; exact absurd hx (List.not_mem_nil x)
  | cons y L ih =>
    intro b x hx
    rw [List.mem_cons] at hx
    cases hx with
    | inl h =>
      subst h
      exact Nat.le_trans (Nat.le_max_right b x : x ≤ Nat.max b x)
        (init_le_foldl_max L (Nat.max b x))
    | inr h => exact ih (Nat.max b y) x h

/-- C3: for valid dimensions with at most 100 elements (and nonempty
element texts, as every scalar value string is), the output of
`print_raw_matrix` is exactly the specified grid: the header, then `rows`
row-groups each terminated by a semicolon and newline, each containing
`cols` cells, every cell right-justified to the uniform width one more
than the maximum printed width over all elements, wrapped in a leading
bracket and trailing bracket — and each logical row-group indeed carries
exactly `cols` element tokens. -/
theorem render_grid_layout :
    ∀ (child : Int → String) (rows cols : Int) (order : Option Bool),
      1 ≤ rows → 1 ≤ cols → rows * cols ≤ 100 →
      (∀ i : Int, 0 ≤ i → i < rows * cols → 1 ≤ (child i).length) →
      print_raw_matrix child rows cols order = render_spec child rows cols order
      ∧ (∀ j : Int, 0 ≤ j → j < rows →
          (_row_element child j rows cols order).length = cols.toNat) := by
  intro child rows cols order hr hc hcap hval
  obtain ⟨r, rfl⟩ : ∃ n : Nat, rows = (n : Int) := ⟨rows.toNat, by omega⟩
  obtain ⟨c, rfl⟩ : ∃ n : Nat, cols = (n : Int) := ⟨cols.toNat, by omega⟩
  have hr1 : 1 ≤ r := by exact_mod_cast hr
  have hc1 : 1 ≤ c := by exact_mod_cast hc
  have hrowlen : ∀ j : Int, 0 ≤ j → j < (r : Int) →
      (_row_element child j (r : Int) (c : Int) order).length = c := by
    intro j hj0 hjr
    unfold _row_element
    by_cases ho : order = some true
    · rw [if_pos ho, row_major_range j (c : Int) c rfl]
      simp
    · rw [if_neg ho, col_major_range j (r : Int) (c : Int) c rfl hj0 hjr]
      simp
  refine ⟨?_, fun j hj0 hjr => by rw [hrowlen j hj0 hjr]; simp⟩
  have hmul : ((r : Int) * (c : Int)) = ((r * c : Nat) : Int) := by push_cast; ring
  have hpadlist : (pyRange 0 ((r : Int) * (c : Int))).map (fun i => (child i).length)
      = (List.range (r * c)).map (fun (i : Nat) => (child (i : Int)).length) := by
    rw [hmul, pyRange_zero, List.map_map]
    rfl
  have hzlt : (0 : Int) < (r : Int) * (c : Int) := by
    rw [hmul]
    exact_mod_cast Nat.mul_pos hr1 hc1
  have hmem : (child ((0 : Nat) : Int)).length
      ∈ (List.range (r * c)).map (fun (i : Nat) => (child (i : Int)).length) :=
    List.mem_map_of_mem _ (List.mem_range.mpr (Nat.mul_pos hr1 hc1))
  have h1le : 1 ≤ (child ((0 : Nat) : Int)).length :=
    hval ((0 : Nat) : Int) (by simp) (by simpa using hzlt)
  have hone : 1 ≤ List.foldl Nat.max 0
      ((List.range (r * c)).map (fun (i : Nat) => (child (i : Int)).length)) :=
    Nat.le_trans h1le (le_foldl_max _ 0 _ hmem)
  have hpadeq : List.foldl Nat.max 1
      ((List.range (r * c)).map (fun (i : Nat) => (child (i : Int)).length))
      = List.foldl Nat.max 0
        ((List.range (r * c)).map (fun (i : Nat) => (child (i : Int)).length)) := by
    have hshift := foldl_max_shift
      ((List.range (r * c)).map (fun (i : Nat) => (child (i : Int)).length)) 1 0
    have hm10 : Nat.max 1 0 = 1 := rfl
    rw [hm10] at hshift
    rw [hshift]
    exact Nat.max_eq_right hone
  unfold print_raw_matrix render_spec
  rw [if_neg (not_lt.mpr hcap)]
  dsimp only
  simp only [Int.toNat_natCast]
  rw [hpadlist, hpadeq, pyRange_zero r, List.map_map]
  congr 1
  congr 1
  apply congrArg String.join
  apply List.map_congr_left
  intro j hj
  have hjr : j < r := List.mem_range.mp hj
  simp only [Function.comp]
  congr 1
  · congr 1
    · by_cases hj0 : j = 0
      · subst hj0; simp
      · simp [hj0, Int.natCast_eq_zero]
    · apply congrArg String.join
      rcases order with _ | b
      · simp only [_row_element]
        rw [if_neg (by simp),
          col_major_range (j : Int) (r : Int) (c : Int) c rfl
            (by exact_mod_cast Nat.zero_le j) (by exact_mod_cast hjr),
          List.map_map, List.map_map]
        apply List.map_congr_left
        intro t _
        simp only [Function.comp]
        rw [show ((j : Int) + (t : Int) * (r : Int))
          = ((t : Int) * (r : Int) + (j : Int)) from by ring]
      · cases b
        · simp only [_row_element]
          rw [if_neg (by simp),
            col_major_range (j : Int) (r : Int) (c : Int) c rfl
              (by exact_mod_cast Nat.zero_le j) (by exact_mod_cast hjr),
            List.map_map, List.map_map]
          apply List.map_congr_left
          intro t _
          simp only [Function.comp]
          rw [show ((j : Int) + (t : Int) * (r : Int))
            = ((t : Int) * (r : Int) + (j : Int)) from by ring]
        · simp only [_row_element]
          rw [if_pos trivial, row_major_range (j : Int) (c : Int) c rfl,
            List.map_map, List.map_map]
          apply List.map_congr_left
          intro t _
          simp only [Function.comp]

/-- Witness for `render_grid_layout` at a concrete `2 × 3` buffer. -/
theorem render_grid_layout_witness :
    print_raw_matrix (fun _ => "7") 2 3 (some false)
      = render_spec (fun _ => "7") 2 3 (some false)
    ∧ (_row_element (fun _ => "7") 0 2 3 (some false)).length = (3 : Int).toNat :=
  ⟨(render_grid_layout (fun _ => "7") 2 3 (some false) (by decide) (by decide)
      (by decide) (fun i h1 h2 => by
        show 1 ≤ ("7" : String).length
        decide)).1,
   (render_grid_layout (fun _ => "7") 2 3 (some false) (by decide) (by decide)
      (by decide) (fun i h1 h2 => by
        show 1 ≤ ("7" : String).length
        decide)).2 0 (by decide) (by decide)⟩
